import Mathlib

/-!
# Envoy resource assembly (`scheduler/pkg/envoy/resources/resource.go`)

A shallow embedding of the five resource builders `MakeCluster`, `makeEDSCluster`,
`MakeEndpoint`, `MakeRoute`, `MakeHTTPListener` and `makeConfigSource`.

Protobuf messages of the Envoy control-plane library are records holding the fields the
builders set; a field the source leaves unset keeps its zero value (a record default).
A protobuf `oneof` is an inductive type.  A Go `panic(err)` is the result `Except.error err`.
The two things the source takes from libraries without fixing them in this file are
parameters: the well-known constants (`Wellknown`) and the envelope encoder `anypb.New`.
-/

set_option autoImplicit false
set_option linter.dupNamespace false

namespace Resources

/-! ## Library types -/

/-- The Go `error` value carried by a panic. -/
abbrev Error := String

/-- The generic envelope `anypb.Any`: a type URL and the serialised bytes. -/
structure AnyPb where
  TypeUrl : String
  Value : List Nat
  deriving DecidableEq, Repr

/-- The message `durationpb.Duration`. -/
structure Duration where
  Seconds : Int
  Nanos : Int
  deriving DecidableEq, Repr

/-- The Go constant `time.Second`, in nanoseconds. -/
def time_Second : Int := 1000000000

/-- The library function `durationpb.New`: whole seconds and the remaining nanoseconds. -/
def durationpb_New (d : Int) : Duration :=
  let nanos := d
  let secs := Int.tdiv nanos 1000000000
  { Seconds := secs, Nanos := nanos - secs * 1000000000 }

namespace core

inductive ApiVersion where
  | AUTO
  | V2
  | V3
  deriving DecidableEq, Repr

inductive SocketAddress_Protocol where
  | TCP
  | UDP
  deriving DecidableEq, Repr

inductive SocketAddress_PortSpecifier where
  | PortValue (PortValue : Nat)
  | NamedPort (NamedPort : String)
  deriving DecidableEq, Repr

structure SocketAddress where
  Protocol : SocketAddress_Protocol
  Address : String
  PortSpecifier : SocketAddress_PortSpecifier
  deriving DecidableEq, Repr

inductive Address_Address where
  | SocketAddress (SocketAddress : core.SocketAddress)
  | Pipe (Path : String)
  deriving DecidableEq, Repr

structure Address where
  Address : Address_Address
  deriving DecidableEq, Repr

structure Http2ProtocolOptions where
  deriving DecidableEq, Repr

structure GrpcService_EnvoyGrpc where
  ClusterName : String
  deriving DecidableEq, Repr

inductive GrpcService_TargetSpecifier where
  | EnvoyGrpc (EnvoyGrpc : GrpcService_EnvoyGrpc)
  | GoogleGrpc (TargetUri : String)
  deriving DecidableEq, Repr

structure GrpcService where
  TargetSpecifier : GrpcService_TargetSpecifier
  deriving DecidableEq, Repr

inductive ApiConfigSource_ApiType where
  | REST
  | GRPC
  | DELTA_GRPC
  | AGGREGATED_GRPC
  | AGGREGATED_DELTA_GRPC
  deriving DecidableEq, Repr

structure ApiConfigSource where
  TransportApiVersion : ApiVersion
  ApiType : ApiConfigSource_ApiType
  SetNodeOnFirstMessageOnly : Bool
  GrpcServices : List GrpcService
  deriving DecidableEq, Repr

inductive ConfigSource_ConfigSourceSpecifier where
  | Path (Path : String)
  | ApiConfigSource (ApiConfigSource : core.ApiConfigSource)
  | Ads
  | Self
  deriving DecidableEq, Repr

structure ConfigSource where
  ResourceApiVersion : ApiVersion
  ConfigSourceSpecifier : ConfigSource_ConfigSourceSpecifier
  deriving DecidableEq, Repr

end core

namespace endpoint

structure Endpoint where
  Address : core.Address
  deriving DecidableEq, Repr

inductive LbEndpoint_HostIdentifier where
  | Endpoint (Endpoint : endpoint.Endpoint)
  | EndpointName (EndpointName : String)
  deriving DecidableEq, Repr

structure LbEndpoint where
  HostIdentifier : LbEndpoint_HostIdentifier
  deriving DecidableEq, Repr

structure LocalityLbEndpoints where
  LbEndpoints : List LbEndpoint
  deriving DecidableEq, Repr

structure ClusterLoadAssignment where
  ClusterName : String
  Endpoints : List LocalityLbEndpoints
  deriving DecidableEq, Repr

end endpoint

namespace cluster

inductive Cluster_DiscoveryType where
  | STATIC
  | STRICT_DNS
  | LOGICAL_DNS
  | EDS
  | ORIGINAL_DST
  deriving DecidableEq, Repr

inductive Cluster_ClusterDiscoveryType where
  | Type (Type_ : Cluster_DiscoveryType)
  | ClusterType (Name : String)
  deriving DecidableEq, Repr

inductive Cluster_LbPolicy where
  | ROUND_ROBIN
  | LEAST_REQUEST
  | RING_HASH
  | RANDOM
  | MAGLEV
  deriving DecidableEq, Repr

inductive Cluster_DnsLookupFamily where
  | AUTO
  | V4_ONLY
  | V6_ONLY
  deriving DecidableEq, Repr

structure Cluster_EdsClusterConfig where
  EdsConfig : core.ConfigSource
  deriving DecidableEq, Repr

/-- The message `cluster.Cluster`.  `EdsClusterConfig` is a pointer field (`none` is nil) and
`TypedExtensionProtocolOptions` a Go map, held as its list of entries (nil map: no entry). -/
structure Cluster where
  Name : String
  ConnectTimeout : Duration
  ClusterDiscoveryType : Cluster_ClusterDiscoveryType
  LbPolicy : Cluster_LbPolicy
  LoadAssignment : endpoint.ClusterLoadAssignment
  DnsLookupFamily : Cluster_DnsLookupFamily
  EdsClusterConfig : Option Cluster_EdsClusterConfig := none
  TypedExtensionProtocolOptions : List (String × AnyPb) := []
  deriving DecidableEq, Repr

end cluster

namespace route

inductive RouteMatch_PathSpecifier where
  | Prefix (Prefix : String)
  | Path (Path : String)
  deriving DecidableEq, Repr

inductive HeaderMatcher_HeaderMatchSpecifier where
  | ExactMatch (ExactMatch : String)
  | PresentMatch (PresentMatch : Bool)
  | PrefixMatch (PrefixMatch : String)
  | SuffixMatch (SuffixMatch : String)
  deriving DecidableEq, Repr

structure HeaderMatcher where
  Name : String
  HeaderMatchSpecifier : HeaderMatcher_HeaderMatchSpecifier
  deriving DecidableEq, Repr

structure RouteMatch where
  PathSpecifier : RouteMatch_PathSpecifier
  Headers : List HeaderMatcher
  deriving DecidableEq, Repr

inductive RouteAction_ClusterSpecifier where
  | Cluster (Cluster : String)
  | ClusterHeader (ClusterHeader : String)
  deriving DecidableEq, Repr

structure RouteAction where
  ClusterSpecifier : RouteAction_ClusterSpecifier
  deriving DecidableEq, Repr

inductive Route_Action where
  | Route (Route : RouteAction)
  | Redirect (HostRedirect : String)
  deriving DecidableEq, Repr

structure Route where
  Name : String
  Match : RouteMatch
  Action : Route_Action
  deriving DecidableEq, Repr

structure VirtualHost where
  Name : String
  Domains : List String
  Routes : List Route
  deriving DecidableEq, Repr

structure RouteConfiguration where
  Name : String
  VirtualHosts : List VirtualHost
  deriving DecidableEq, Repr

end route

namespace http

inductive HttpProtocolOptions_ExplicitHttpConfig_ProtocolConfig where
  | HttpProtocolOptions
  | Http2ProtocolOptions (Http2ProtocolOptions : core.Http2ProtocolOptions)
  deriving DecidableEq, Repr

structure HttpProtocolOptions_ExplicitHttpConfig where
  ProtocolConfig : HttpProtocolOptions_ExplicitHttpConfig_ProtocolConfig
  deriving DecidableEq, Repr

inductive HttpProtocolOptions_UpstreamProtocolOptions where
  | ExplicitHttpConfig (ExplicitHttpConfig : HttpProtocolOptions_ExplicitHttpConfig)
  | UseDownstreamProtocolConfig
  | AutoConfig
  deriving DecidableEq, Repr

structure HttpProtocolOptions where
  UpstreamProtocolOptions : HttpProtocolOptions_UpstreamProtocolOptions
  deriving DecidableEq, Repr

end http

namespace hcm

inductive HttpConnectionManager_CodecType where
  | AUTO
  | HTTP1
  | HTTP2
  | HTTP3
  deriving DecidableEq, Repr

structure Rds where
  ConfigSource : core.ConfigSource
  RouteConfigName : String
  deriving DecidableEq, Repr

/-- The `oneof route_specifier`: fetched by name (`Rds`), inline (`RouteConfig`) or scoped. -/
inductive HttpConnectionManager_RouteSpecifier where
  | Rds (Rds : hcm.Rds)
  | RouteConfig (RouteConfig : route.RouteConfiguration)
  | ScopedRoutes (Name : String)
  deriving DecidableEq, Repr

structure HttpFilter where
  Name : String
  deriving DecidableEq, Repr

structure HttpConnectionManager where
  CodecType : HttpConnectionManager_CodecType
  StatPrefix : String
  RouteSpecifier : HttpConnectionManager_RouteSpecifier
  HttpFilters : List HttpFilter
  deriving DecidableEq, Repr

end hcm

namespace listener

inductive Filter_ConfigType where
  | TypedConfig (TypedConfig : AnyPb)
  | ConfigDiscovery (Name : String)
  deriving DecidableEq, Repr

structure Filter where
  Name : String
  ConfigType : Filter_ConfigType
  deriving DecidableEq, Repr

structure FilterChain where
  Filters : List Filter
  deriving DecidableEq, Repr

structure Listener where
  Name : String
  Address : core.Address
  FilterChains : List FilterChain
  deriving DecidableEq, Repr

end listener

/-- The messages this file hands to `anypb.New`. -/
inductive ProtoMessage where
  | HttpProtocolOptions (m : http.HttpProtocolOptions)
  | HttpConnectionManager (m : hcm.HttpConnectionManager)
  deriving DecidableEq, Repr

/-- The envelope encoder `anypb.New`: the envelope, or the error of a failed serialisation. -/
abbrev Encoder := ProtoMessage → Except Error AnyPb

/-- The constants the source reads from the control-plane library:
`resource.DefaultAPIVersion`, `wellknown.Router` and `wellknown.HTTPConnectionManager`. -/
structure Wellknown where
  DefaultAPIVersion : core.ApiVersion
  Router : String
  HTTPConnectionManager : String
  deriving DecidableEq, Repr

/-! ## Input model -/

/-- Modelled from the spec: the type declaration `Endpoint` of the package is not in
`resource.go`; the spec gives the fields `UpstreamHost` (a string) and `UpstreamPort`, an
unsigned machine integer that `MakeEndpoint` stores unchanged. -/
structure Endpoint where
  UpstreamHost : String
  UpstreamPort : Nat
  deriving DecidableEq, Repr

/-- Modelled from the spec: the type declaration `Route` of the package is not in
`resource.go`; the spec gives the fields `Name`, `Host`, `HttpCluster` and `GrpcCluster`,
all strings. -/
structure Route where
  Name : String
  Host : String
  HttpCluster : String
  GrpcCluster : String
  deriving DecidableEq, Repr

/-! ## The builders -/

def RouteConfigurationName : String := "listener_0"

def makeConfigSource (wk : Wellknown) : core.ConfigSource :=
  { ResourceApiVersion := wk.DefaultAPIVersion
    ConfigSourceSpecifier := .ApiConfigSource
      { TransportApiVersion := wk.DefaultAPIVersion
        ApiType := .DELTA_GRPC
        SetNodeOnFirstMessageOnly := true
        GrpcServices := [{ TargetSpecifier := .EnvoyGrpc { ClusterName := "xds_cluster" } }] } }

def makeEDSCluster (wk : Wellknown) : cluster.Cluster_EdsClusterConfig :=
  { EdsConfig := makeConfigSource wk }

/-- The loop of `MakeEndpoint` appends one `LbEndpoint` per input endpoint to `endpoints`. -/
def MakeEndpoint (clusterName : String) (eps : List Endpoint) : endpoint.ClusterLoadAssignment :=
  let endpoints : List endpoint.LbEndpoint :=
    eps.foldl (fun endpoints e => endpoints ++ [
      { HostIdentifier := .Endpoint
          { Address :=
              { Address := .SocketAddress
                  { Protocol := .TCP
                    Address := e.UpstreamHost
                    PortSpecifier := .PortValue e.UpstreamPort } } } }]) []
  { ClusterName := clusterName
    Endpoints := [{ LbEndpoints := endpoints }] }

def MakeCluster (anypb_New : Encoder) (clusterName : String) (eps : List Endpoint)
    (isGrpc : Bool) : Except Error cluster.Cluster :=
  if isGrpc then
    let httpProtocolOptions : http.HttpProtocolOptions :=
      { UpstreamProtocolOptions := .ExplicitHttpConfig
          { ProtocolConfig := .Http2ProtocolOptions {} } }
    match anypb_New (.HttpProtocolOptions httpProtocolOptions) with
    | .error err => .error err
    | .ok hpoMarshalled =>
      .ok
        { Name := clusterName
          ConnectTimeout := durationpb_New (5 * time_Second)
          ClusterDiscoveryType := .Type .STRICT_DNS
          LbPolicy := .ROUND_ROBIN
          LoadAssignment := MakeEndpoint clusterName eps
          DnsLookupFamily := .V4_ONLY
          TypedExtensionProtocolOptions :=
            [("envoy.extensions.upstreams.http.v3.HttpProtocolOptions", hpoMarshalled)] }
  else
    .ok
      { Name := clusterName
        ConnectTimeout := durationpb_New (5 * time_Second)
        ClusterDiscoveryType := .Type .STRICT_DNS
        LbPolicy := .ROUND_ROBIN
        LoadAssignment := MakeEndpoint clusterName eps
        DnsLookupFamily := .V4_ONLY }

/-- The loop of `MakeRoute` appends, per input route, the HTTP rule and then the gRPC rule. -/
def MakeRoute (routes : List Route) : route.RouteConfiguration :=
  let rts : List route.Route :=
    routes.foldl (fun rts r =>
      (rts ++ [
        { Name := r.Name ++ "_http"
          Match :=
            { PathSpecifier := .Prefix "/v2"
              Headers := [{ Name := "Host", HeaderMatchSpecifier := .ExactMatch r.Host }] }
          Action := .Route { ClusterSpecifier := .Cluster r.HttpCluster } }]) ++ [
        { Name := r.Name ++ "_grpc"
          Match :=
            { PathSpecifier := .Prefix "/inference.GRPCInferenceService"
              Headers := [{ Name := "Seldon", HeaderMatchSpecifier := .ExactMatch r.Host }] }
          Action := .Route { ClusterSpecifier := .Cluster r.GrpcCluster } }]) []
  { Name := RouteConfigurationName
    VirtualHosts := [
      { Name := "seldon_service"
        Domains := ["*"]
        Routes := rts }] }

def MakeHTTPListener (wk : Wellknown) (anypb_New : Encoder) (listenerName address : String)
    (port : Nat) : Except Error listener.Listener :=
  let manager : hcm.HttpConnectionManager :=
    { CodecType := .AUTO
      StatPrefix := "http"
      RouteSpecifier := .Rds
        { ConfigSource := makeConfigSource wk
          RouteConfigName := RouteConfigurationName }
      HttpFilters := [{ Name := wk.Router }] }
  match anypb_New (.HttpConnectionManager manager) with
  | .error err => .error err
  | .ok pbst =>
    .ok
      { Name := listenerName
        Address :=
          { Address := .SocketAddress
              { Protocol := .TCP
                Address := address
                PortSpecifier := .PortValue port } }
        FilterChains := [
          { Filters := [
              { Name := wk.HTTPConnectionManager
                ConfigType := .TypedConfig pbst }] }] }

/-! ## Sample inputs -/

/-- The route of the spec's scenario. -/
def modelA : Route :=
  { Name := "model-a", Host := "a.example.com", HttpCluster := "cl-http-a",
    GrpcCluster := "cl-grpc-a" }

def modelB : Route :=
  { Name := "model-b", Host := "b.example.com", HttpCluster := "cl-http-b",
    GrpcCluster := "cl-grpc-b" }

/-- Library constants as the control-plane library declares them. -/
def sampleWellknown : Wellknown :=
  { DefaultAPIVersion := .V3
    Router := "envoy.filters.http.router"
    HTTPConnectionManager := "envoy.filters.network.http_connection_manager" }

/-- An encoder that always succeeds, with a fixed payload per message kind. -/
def sampleEncoder : Encoder
  | .HttpProtocolOptions _ =>
    .ok { TypeUrl := "type.googleapis.com/envoy.extensions.upstreams.http.v3.HttpProtocolOptions",
          Value := [18, 2, 18, 0] }
  | .HttpConnectionManager _ =>
    .ok { TypeUrl := "type.googleapis.com/envoy.extensions.filters.network.http_connection_manager.v3.HttpConnectionManager",
          Value := [18, 4, 104, 116, 116, 112] }

/-- An encoder whose serialisation always fails. -/
def failingEncoder : Encoder :=
  fun _ => .error "proto: marshal failed"

def sampleEndpoints : List Endpoint :=
  [{ UpstreamHost := "10.0.0.1", UpstreamPort := 9000 },
   { UpstreamHost := "", UpstreamPort := 0 },
   { UpstreamHost := "10.0.0.1", UpstreamPort := 9000 }]

/-- An encoder that agrees with `sampleEncoder` on explicit-HTTP protocol options and on
connection managers with codec type `AUTO`, and fails on every other message. -/
def pickyEncoder : Encoder
  | .HttpProtocolOptions { UpstreamProtocolOptions := .ExplicitHttpConfig c } =>
    sampleEncoder (.HttpProtocolOptions { UpstreamProtocolOptions := .ExplicitHttpConfig c })
  | .HttpProtocolOptions _ => .error "proto: unsupported protocol options"
  | .HttpConnectionManager m =>
    match m.CodecType with
    | .AUTO => sampleEncoder (.HttpConnectionManager m)
    | _ => .error "proto: unsupported codec type"

/-! ## Rule evaluation by the consuming proxy -/

/-- A request as the proxy sees it: its path and its headers, name and value. -/
structure Request where
  Path : String
  Headers : List (String × String)
  deriving DecidableEq, Repr

/-- Whether `pre` is a prefix of the path `s`, character by character. -/
def hasPrefix (s pre : String) : Bool :=
  pre.data.isPrefixOf s.data

/-- Whether a request path satisfies a rule's path specifier. -/
def pathMatches (ps : route.RouteMatch_PathSpecifier) (path : String) : Bool :=
  match ps with
  | .Prefix p => hasPrefix path p
  | .Path p => decide (path = p)

/-- Modelled from the spec: the proxy is not part of `resource.go`; a rule matches a request
when its path specifier matches the path and each of its header matchers holds.  How one
header matcher is evaluated is left to the parameter `hdr`. -/
def ruleMatches (hdr : route.HeaderMatcher → Request → Bool) (r : route.Route)
    (req : Request) : Bool :=
  pathMatches r.Match.PathSpecifier req.Path && r.Match.Headers.all (fun h => hdr h req)

/-- Modelled from the spec: the proxy is not part of `resource.go`; rules are evaluated in
table order and the first matching rule wins. -/
def firstMatch (hdr : route.HeaderMatcher → Request → Bool) (rules : List route.Route)
    (req : Request) : Option route.Route :=
  rules.find? (fun r => ruleMatches hdr r req)

/-- A table with some of its consecutive pairs exchanged: the `k`-th flag says whether the
`k`-th pair is; pairs beyond the flags stay. -/
def swapPairs {α : Type} : List Bool → List α → List α
  | true :: bs, a :: b :: rest => b :: a :: swapPairs bs rest
  | false :: bs, a :: b :: rest => a :: b :: swapPairs bs rest
  | _, l => l

/-- A header matcher evaluated as an exact, case-sensitive comparison on name and value. -/
def exactHeader (h : route.HeaderMatcher) (req : Request) : Bool :=
  match h.HeaderMatchSpecifier with
  | .ExactMatch v => req.Headers.any (fun kv => kv.1 == h.Name && kv.2 == v)
  | _ => false

/-! ## The loops as list functions -/

theorem foldl_snoc_eq_map {α β : Type} (f : α → β) (init : List β) (l : List α) :
    l.foldl (fun acc x => acc ++ [f x]) init = init ++ l.map f := by
  induction l generalizing init with
  | nil => simp
  | cons x xs ih => simp [ih]

theorem foldl_snoc_pair_eq_flatMap {α β : Type} (f g : α → β) (init : List β) (l : List α) :
    l.foldl (fun acc x => (acc ++ [f x]) ++ [g x]) init
      = init ++ l.flatMap (fun x => [f x, g x]) := by
  induction l generalizing init with
  | nil => simp
  | cons x xs ih =>
    rw [List.foldl_cons, ih, List.flatMap_cons]
    simp

theorem length_flatMap_pair {α β : Type} (f g : α → β) (l : List α) :
    (l.flatMap (fun x => [f x, g x])).length = 2 * l.length := by
  induction l with
  | nil => simp
  | cons x xs ih => simp [List.flatMap_cons, ih]; omega

theorem getElem?_flatMap_pair_even {α β : Type} (f g : α → β) (l : List α) (i : Nat) :
    (l.flatMap (fun x => [f x, g x]))[2 * i]? = (l[i]?).map f := by
  induction l generalizing i with
  | nil => simp
  | cons x xs ih =>
    cases i with
    | zero => simp [List.flatMap_cons]
    | succ j =>
      have h2 : 2 * (j + 1) = 2 * j + 1 + 1 := by omega
      simp only [List.flatMap_cons, h2]
      simpa using ih j

theorem getElem?_flatMap_pair_odd {α β : Type} (f g : α → β) (l : List α) (i : Nat) :
    (l.flatMap (fun x => [f x, g x]))[2 * i + 1]? = (l[i]?).map g := by
  induction l generalizing i with
  | nil => simp
  | cons x xs ih =>
    cases i with
    | zero => simp [List.flatMap_cons]
    | succ j =>
      have h2 : 2 * (j + 1) + 1 = 2 * j + 1 + 1 + 1 := by omega
      simp only [List.flatMap_cons, h2]
      simpa using ih j

theorem take_two_drop {α : Type} {l : List α} {k : Nat} {a b : α}
    (ha : l[k]? = some a) (hb : l[k + 1]? = some b) : (l.drop k).take 2 = [a, b] := by
  induction k generalizing l with
  | zero =>
    match l, ha, hb with
    | x :: y :: rest, ha, hb =>
      simp only [List.getElem?_cons_zero, Option.some.injEq] at ha
      simp only [Nat.zero_add, List.getElem?_cons_succ, List.getElem?_cons_zero,
        Option.some.injEq] at hb
      simp [ha, hb]
    | [x], ha, hb => simp at hb
    | [], ha, hb => simp at ha
  | succ n ih =>
    match l, ha, hb with
    | x :: rest, ha, hb =>
      simp only [List.getElem?_cons_succ] at ha hb
      simpa using ih ha hb
    | [], ha, hb => simp at ha

/-- The rule list of `MakeRoute`, loop unrolled: per route the HTTP rule then the gRPC rule. -/
theorem MakeRoute_eq (routes : List Route) :
    MakeRoute routes =
      { Name := RouteConfigurationName
        VirtualHosts := [
          { Name := "seldon_service"
            Domains := ["*"]
            Routes := routes.flatMap (fun r => [
              { Name := r.Name ++ "_http"
                Match :=
                  { PathSpecifier := .Prefix "/v2"
                    Headers := [{ Name := "Host", HeaderMatchSpecifier := .ExactMatch r.Host }] }
                Action := .Route { ClusterSpecifier := .Cluster r.HttpCluster } },
              { Name := r.Name ++ "_grpc"
                Match :=
                  { PathSpecifier := .Prefix "/inference.GRPCInferenceService"
                    Headers := [{ Name := "Seldon", HeaderMatchSpecifier := .ExactMatch r.Host }] }
                Action := .Route { ClusterSpecifier := .Cluster r.GrpcCluster } }]) }] } := by
  simp only [MakeRoute, foldl_snoc_pair_eq_flatMap, List.nil_append]

/-- The endpoint list of `MakeEndpoint`, loop unrolled: one entry per input endpoint. -/
theorem MakeEndpoint_eq (clusterName : String) (eps : List Endpoint) :
    MakeEndpoint clusterName eps =
      { ClusterName := clusterName
        Endpoints := [
          { LbEndpoints := eps.map (fun e =>
              { HostIdentifier := .Endpoint
                  { Address :=
                      { Address := .SocketAddress
                          { Protocol := .TCP
                            Address := e.UpstreamHost
                            PortSpecifier := .PortValue e.UpstreamPort } } } }) }] } := by
  simp only [MakeEndpoint, foldl_snoc_eq_map, List.nil_append]

/-! ## `MakeRoute` -/

/-- C1: for every route list `rs`, the single virtual host of `MakeRoute rs` has exactly
`2 * rs.length` rules; for every `i < rs.length` the rule at index `2 * i` is named
`rs[i].Name ++ "_http"`, has path prefix `/v2` and forwards to `rs[i].HttpCluster`, and the
rule at index `2 * i + 1` is named `rs[i].Name ++ "_grpc"`, has path prefix
`/inference.GRPCInferenceService` and forwards to `rs[i].GrpcCluster`. -/
theorem MakeRoute_two_rules_per_route (rs : List Route) :
    ∃ vh : route.VirtualHost, (MakeRoute rs).VirtualHosts = [vh] ∧
      vh.Routes.length = 2 * rs.length ∧
      ∀ (i : Nat) (hi : i < rs.length), ∃ a b : route.Route,
        vh.Routes[2 * i]? = some a ∧ vh.Routes[2 * i + 1]? = some b ∧
        a.Name = rs[i].Name ++ "_http" ∧
        a.Match.PathSpecifier = .Prefix "/v2" ∧
        a.Action = .Route { ClusterSpecifier := .Cluster rs[i].HttpCluster } ∧
        b.Name = rs[i].Name ++ "_grpc" ∧
        b.Match.PathSpecifier = .Prefix "/inference.GRPCInferenceService" ∧
        b.Action = .Route { ClusterSpecifier := .Cluster rs[i].GrpcCluster } := by
  rw [MakeRoute_eq]
  refine ⟨_, rfl, length_flatMap_pair _ _ rs, ?_⟩
  intro i hi
  simp only [getElem?_flatMap_pair_even, getElem?_flatMap_pair_odd,
    List.getElem?_eq_getElem hi, Option.map_some']
  exact ⟨_, _, rfl, rfl, rfl, rfl, rfl, rfl, rfl, rfl⟩

/-- The scenario of the spec: the route `model-a` yields exactly the two rules
`model-a_http` (prefix `/v2`, to `cl-http-a`) and `model-a_grpc` (gRPC prefix, to `cl-grpc-a`). -/
theorem MakeRoute_two_rules_per_route_witness :
    0 < [modelA].length ∧
    (MakeRoute [modelA]).VirtualHosts.map
        (fun vh => vh.Routes.map (fun r => (r.Name, r.Match.PathSpecifier, r.Action))) =
      [[("model-a_http", .Prefix "/v2", .Route { ClusterSpecifier := .Cluster "cl-http-a" }),
        ("model-a_grpc", .Prefix "/inference.GRPCInferenceService",
          .Route { ClusterSpecifier := .Cluster "cl-grpc-a" })]] := by
  refine ⟨by decide, ?_⟩
  obtain ⟨vh, hv, hl, hr⟩ := MakeRoute_two_rules_per_route [modelA]
  obtain ⟨a, b, ha, hb, h1, h2, h3, h4, h5, h6⟩ := hr 0 (by decide)
  have hab : vh.Routes = [a, b] := by
    apply List.ext_getElem?
    intro n
    match n with
    | 0 => simpa using ha
    | 1 => simpa using hb
    | n + 2 =>
      have : vh.Routes.length ≤ n + 2 := by rw [hl]; simp
      simp [List.getElem?_eq_none this]
  rw [hv]
  simp only [List.map, hab, h1, h2, h3, h4, h5, h6]
  rfl

/-- C2: for every route of the input, the HTTP rule carries exactly one header matcher, named
`Host`, an exact match on the route's `Host`; the gRPC rule carries exactly one header matcher,
not named `Host`, an exact match on the same `Host`; and the rule with the non-`Host` header
is the one with the gRPC path prefix that forwards to `GrpcCluster`. -/
theorem MakeRoute_header_matchers (rs : List Route) :
    ∃ vh : route.VirtualHost, (MakeRoute rs).VirtualHosts = [vh] ∧
      ∀ (i : Nat) (hi : i < rs.length), ∃ (a b : route.Route) (hm : route.HeaderMatcher),
        vh.Routes[2 * i]? = some a ∧ vh.Routes[2 * i + 1]? = some b ∧
        a.Match.Headers =
          [{ Name := "Host", HeaderMatchSpecifier := .ExactMatch rs[i].Host }] ∧
        a.Match.PathSpecifier = .Prefix "/v2" ∧
        a.Action = .Route { ClusterSpecifier := .Cluster rs[i].HttpCluster } ∧
        b.Match.Headers = [hm] ∧ hm.Name ≠ "Host" ∧
        hm.HeaderMatchSpecifier = .ExactMatch rs[i].Host ∧
        b.Match.PathSpecifier = .Prefix "/inference.GRPCInferenceService" ∧
        b.Action = .Route { ClusterSpecifier := .Cluster rs[i].GrpcCluster } := by
  rw [MakeRoute_eq]
  refine ⟨_, rfl, ?_⟩
  intro i hi
  simp only [getElem?_flatMap_pair_even, getElem?_flatMap_pair_odd,
    List.getElem?_eq_getElem hi, Option.map_some']
  exact ⟨_, _, _, rfl, rfl, rfl, rfl, rfl, rfl, (by show "Seldon" ≠ "Host"; decide), rfl, rfl, rfl⟩

/-- The second of two routes: its HTTP rule matches header `Host`, its gRPC rule another
header, both on `b.example.com`. -/
theorem MakeRoute_header_matchers_witness :
    1 < [modelA, modelB].length ∧
    (MakeRoute [modelA, modelB]).VirtualHosts.map
        (fun vh => ((vh.Routes.drop (2 * 1)).take 2).map (fun r =>
          (r.Match.Headers.map (fun h => (decide (h.Name = "Host"), h.HeaderMatchSpecifier)),
            r.Action))) =
      [[([(true, .ExactMatch "b.example.com")],
          .Route { ClusterSpecifier := .Cluster "cl-http-b" }),
        ([(false, .ExactMatch "b.example.com")],
          .Route { ClusterSpecifier := .Cluster "cl-grpc-b" })]] := by
  refine ⟨by decide, ?_⟩
  obtain ⟨vh, hv, hr⟩ := MakeRoute_header_matchers [modelA, modelB]
  obtain ⟨a, b, hm, ha, hb, h1, h2, h3, h4, h5, h6, h7, h8⟩ := hr 1 (by decide)
  rw [hv]
  simp only [List.map, take_two_drop ha hb, h1, h3, h4, h6, h8, decide_eq_true_eq,
    decide_True, h5, decide_False]
  rfl

/-- C7: for every route list, the empty one included, `MakeRoute` returns a route table named
`RouteConfigurationName` with exactly one virtual host, whose domain list is `["*"]` and
which holds all emitted rules (two per route, in input order); for the empty list that
virtual host has zero rules.  `MakeRoute` is a total function: no input raises an error. -/
theorem MakeRoute_single_virtual_host (rs : List Route) :
    (MakeRoute rs).Name = RouteConfigurationName ∧
    (∃ vh : route.VirtualHost, (MakeRoute rs).VirtualHosts = [vh] ∧ vh.Domains = ["*"] ∧
      vh.Routes.length = 2 * rs.length ∧
      vh.Routes.map (fun r => r.Name) =
        rs.flatMap (fun r => [r.Name ++ "_http", r.Name ++ "_grpc"])) ∧
    (MakeRoute []).VirtualHosts.map (fun vh => (vh.Domains, vh.Routes)) = [(["*"], [])] := by
  refine ⟨rfl, ?_, rfl⟩
  simp only [MakeRoute_eq]
  refine ⟨_, rfl, rfl, length_flatMap_pair _ _ rs, ?_⟩
  induction rs with
  | nil => rfl
  | cons r rest ih => simp [List.flatMap_cons, ih]

/-! ## `MakeEndpoint` -/

/-- C3: for every cluster name and every endpoint list, the empty one included,
`MakeEndpoint` returns an assignment with `ClusterName = name` and exactly one locality group,
whose lb-endpoint list has the length of the input and whose `i`-th entry is a TCP socket
address with the host and port of the `i`-th input endpoint, whatever these are; for the empty
list the group has zero members. -/
theorem MakeEndpoint_one_group_in_order (name : String) (eps : List Endpoint) :
    (MakeEndpoint name eps).ClusterName = name ∧
    (∃ g : endpoint.LocalityLbEndpoints, (MakeEndpoint name eps).Endpoints = [g] ∧
      g.LbEndpoints.length = eps.length ∧
      ∀ i : Nat, g.LbEndpoints[i]? = (eps[i]?).map (fun e =>
        { HostIdentifier := .Endpoint
            { Address :=
                { Address := .SocketAddress
                    { Protocol := .TCP
                      Address := e.UpstreamHost
                      PortSpecifier := .PortValue e.UpstreamPort } } } })) ∧
    (MakeEndpoint name []).Endpoints = [{ LbEndpoints := [] }] := by
  refine ⟨rfl, ?_, rfl⟩
  rw [MakeEndpoint_eq]
  refine ⟨_, rfl, ?_, ?_⟩
  · simp
  · intro i
    simp

/-! ## `MakeCluster` -/

theorem durationpb_New_five_seconds :
    durationpb_New (5 * time_Second) = { Seconds := 5, Nanos := 0 } := by
  decide

/-- C4: when envelope encoding succeeds, `MakeCluster name eps true` returns a cluster whose
typed-extension map has exactly one entry, keyed
`envoy.extensions.upstreams.http.v3.HttpProtocolOptions` and holding the encoded explicit
HTTP/2 protocol options; `MakeCluster name eps false` returns a cluster whose map is empty; so
on every returned cluster the extension is present exactly when `isGrpc` is true, whatever
`name` and `eps` are. -/
theorem MakeCluster_typed_extension (anypb_New : Encoder) (name : String)
    (eps : List Endpoint) :
    (∀ hpoMarshalled : AnyPb,
      anypb_New (.HttpProtocolOptions
        { UpstreamProtocolOptions := .ExplicitHttpConfig
            { ProtocolConfig := .Http2ProtocolOptions {} } }) = .ok hpoMarshalled →
      ∃ c : cluster.Cluster, MakeCluster anypb_New name eps true = .ok c ∧
        c.TypedExtensionProtocolOptions =
          [("envoy.extensions.upstreams.http.v3.HttpProtocolOptions", hpoMarshalled)]) ∧
    (∃ c : cluster.Cluster, MakeCluster anypb_New name eps false = .ok c ∧
      c.TypedExtensionProtocolOptions = []) ∧
    (∀ (isGrpc : Bool) (c : cluster.Cluster), MakeCluster anypb_New name eps isGrpc = .ok c →
      (c.TypedExtensionProtocolOptions.lookup
        "envoy.extensions.upstreams.http.v3.HttpProtocolOptions").isSome = isGrpc) := by
  refine ⟨?_, ⟨_, rfl, rfl⟩, ?_⟩
  · intro a ha
    simp only [MakeCluster, if_true, ha]
    exact ⟨_, rfl, rfl⟩
  · intro isGrpc c hc
    cases isGrpc with
    | false =>
      simp only [MakeCluster, Bool.false_eq_true, if_false, Except.ok.injEq] at hc
      subst hc
      rfl
    | true =>
      simp only [MakeCluster, if_true] at hc
      split at hc
      · exact absurd hc (by simp)
      · simp only [Except.ok.injEq] at hc
        subst hc
        simp [List.lookup]

/-- With the sample encoder the gRPC cluster `cl-grpc-a` carries exactly the one entry. -/
theorem MakeCluster_typed_extension_witness :
    ∃ c : cluster.Cluster, MakeCluster sampleEncoder "cl-grpc-a" sampleEndpoints true = .ok c ∧
      c.TypedExtensionProtocolOptions =
        [("envoy.extensions.upstreams.http.v3.HttpProtocolOptions",
          { TypeUrl :=
              "type.googleapis.com/envoy.extensions.upstreams.http.v3.HttpProtocolOptions",
            Value := [18, 2, 18, 0] })] :=
  (MakeCluster_typed_extension sampleEncoder "cl-grpc-a" sampleEndpoints).1 _ rfl

/-- C5: for every cluster name, endpoint list and value of `isGrpc`, provided the envelope
encoding that the gRPC branch needs succeeds, `MakeCluster` returns a cluster with
`Name = name`, discovery type `STRICT_DNS`, policy `ROUND_ROBIN`, DNS lookup family `V4_ONLY`,
a connect timeout of exactly 5 seconds and `LoadAssignment = MakeEndpoint name eps`. -/
theorem MakeCluster_fixed_fields (anypb_New : Encoder) (name : String) (eps : List Endpoint)
    (isGrpc : Bool)
    (henc : isGrpc = true → ∃ hpoMarshalled : AnyPb,
      anypb_New (.HttpProtocolOptions
        { UpstreamProtocolOptions := .ExplicitHttpConfig
            { ProtocolConfig := .Http2ProtocolOptions {} } }) = .ok hpoMarshalled) :
    ∃ c : cluster.Cluster, MakeCluster anypb_New name eps isGrpc = .ok c ∧
      c.Name = name ∧
      c.ClusterDiscoveryType = .Type .STRICT_DNS ∧
      c.LbPolicy = .ROUND_ROBIN ∧
      c.DnsLookupFamily = .V4_ONLY ∧
      c.ConnectTimeout = { Seconds := 5, Nanos := 0 } ∧
      c.LoadAssignment = MakeEndpoint name eps := by
  cases isGrpc with
  | false => exact ⟨_, rfl, rfl, rfl, rfl, rfl, durationpb_New_five_seconds, rfl⟩
  | true =>
    obtain ⟨a, ha⟩ := henc rfl
    simp only [MakeCluster, if_true, ha]
    exact ⟨_, rfl, rfl, rfl, rfl, rfl, durationpb_New_five_seconds, rfl⟩

/-- The gRPC cluster `cl-grpc-a` built with the sample encoder has the fixed fields. -/
theorem MakeCluster_fixed_fields_witness :
    ∃ c : cluster.Cluster, MakeCluster sampleEncoder "cl-grpc-a" sampleEndpoints true = .ok c ∧
      c.Name = "cl-grpc-a" ∧
      c.ClusterDiscoveryType = .Type .STRICT_DNS ∧
      c.LbPolicy = .ROUND_ROBIN ∧
      c.DnsLookupFamily = .V4_ONLY ∧
      c.ConnectTimeout = { Seconds := 5, Nanos := 0 } ∧
      c.LoadAssignment = MakeEndpoint "cl-grpc-a" sampleEndpoints :=
  MakeCluster_fixed_fields sampleEncoder "cl-grpc-a" sampleEndpoints true
    (fun _ => ⟨_, rfl⟩)

/-! ## `makeConfigSource` and `MakeHTTPListener` -/

/-- C10: `makeConfigSource` returns a descriptor whose resource and transport API versions
are both the library default, whose API type is `DELTA_GRPC` (not the full-state `GRPC`),
whose `SetNodeOnFirstMessageOnly` is true and whose gRPC service list has exactly one entry,
an Envoy-gRPC target with cluster name `xds_cluster`. -/
theorem makeConfigSource_descriptor (wk : Wellknown) :
    (makeConfigSource wk).ResourceApiVersion = wk.DefaultAPIVersion ∧
    ∃ api : core.ApiConfigSource,
      (makeConfigSource wk).ConfigSourceSpecifier = .ApiConfigSource api ∧
      api.TransportApiVersion = wk.DefaultAPIVersion ∧
      api.ApiType = .DELTA_GRPC ∧ api.ApiType ≠ .GRPC ∧
      api.SetNodeOnFirstMessageOnly = true ∧
      api.GrpcServices = [{ TargetSpecifier := .EnvoyGrpc { ClusterName := "xds_cluster" } }] :=
  ⟨rfl, _, rfl, rfl, rfl, (fun h => by cases h), rfl, rfl⟩

/-- C6: for every listener name, address and port there is one connection manager `m` that
`MakeHTTPListener` hands to the encoder and embeds, encoded, as the only filter config of its
output; its route specifier is of the RDS kind, never an inline `RouteConfiguration`, with
`ConfigSource = makeConfigSource` and `RouteConfigName = RouteConfigurationName`; and for
every route list that name is the name of the table `MakeRoute` builds. -/
theorem MakeHTTPListener_routes_by_name (wk : Wellknown) (listenerName address : String)
    (port : Nat) :
    ∃ m : hcm.HttpConnectionManager,
      (∀ anypb_New : Encoder,
        MakeHTTPListener wk anypb_New listenerName address port =
          (anypb_New (.HttpConnectionManager m)).map (fun pbst =>
            { Name := listenerName
              Address :=
                { Address := .SocketAddress
                    { Protocol := .TCP, Address := address, PortSpecifier := .PortValue port } }
              FilterChains := [
                { Filters := [
                    { Name := wk.HTTPConnectionManager
                      ConfigType := .TypedConfig pbst }] }] })) ∧
      m.RouteSpecifier =
        .Rds { ConfigSource := makeConfigSource wk, RouteConfigName := RouteConfigurationName } ∧
      (∀ rc : route.RouteConfiguration, m.RouteSpecifier ≠ .RouteConfig rc) ∧
      ∀ rs : List Route, (MakeRoute rs).Name = RouteConfigurationName := by
  refine ⟨{ CodecType := .AUTO, StatPrefix := "http",
             RouteSpecifier := .Rds
               { ConfigSource := makeConfigSource wk, RouteConfigName := RouteConfigurationName },
             HttpFilters := [{ Name := wk.Router }] }, ?_, rfl, ?_, fun _ => rfl⟩
  · intro enc
    simp only [MakeHTTPListener]
    cases enc (.HttpConnectionManager _) <;> rfl
  · intro rc h
    cases h

/-- C9: for every listener name, address and port there is one connection manager `m`, with
codec type `AUTO`, stat prefix `http` and an HTTP filter list of exactly the router filter,
such that, when encoding `m` succeeds, `MakeHTTPListener` returns a listener with
`Name = listenerName`, the TCP socket address of the given address and port, and exactly one
filter chain holding exactly one filter, the HTTP connection manager with the encoded `m`. -/
theorem MakeHTTPListener_one_chain_one_filter (wk : Wellknown) (listenerName address : String)
    (port : Nat) :
    ∃ m : hcm.HttpConnectionManager,
      m.CodecType = .AUTO ∧ m.StatPrefix = "http" ∧ m.HttpFilters = [{ Name := wk.Router }] ∧
      ∀ (anypb_New : Encoder) (pbst : AnyPb),
        anypb_New (.HttpConnectionManager m) = .ok pbst →
        ∃ l : listener.Listener,
          MakeHTTPListener wk anypb_New listenerName address port = .ok l ∧
          l.Name = listenerName ∧
          l.Address =
            { Address := .SocketAddress
                { Protocol := .TCP, Address := address, PortSpecifier := .PortValue port } } ∧
          l.FilterChains = [
            { Filters := [
                { Name := wk.HTTPConnectionManager, ConfigType := .TypedConfig pbst }] }] := by
  refine ⟨{ CodecType := .AUTO, StatPrefix := "http",
             RouteSpecifier := .Rds
               { ConfigSource := makeConfigSource wk, RouteConfigName := RouteConfigurationName },
             HttpFilters := [{ Name := wk.Router }] }, rfl, rfl, rfl, ?_⟩
  intro enc pbst h
  simp only [MakeHTTPListener, h]
  exact ⟨_, rfl, rfl, rfl, rfl⟩

/-- The listener `listener_0` on `0.0.0.0:9000` built with the sample constants and encoder. -/
theorem MakeHTTPListener_one_chain_one_filter_witness :
    ∃ l : listener.Listener,
      MakeHTTPListener sampleWellknown sampleEncoder "listener_0" "0.0.0.0" 9000 = .ok l ∧
      l.Name = "listener_0" ∧
      l.Address =
        { Address := .SocketAddress
            { Protocol := .TCP, Address := "0.0.0.0", PortSpecifier := .PortValue 9000 } } ∧
      l.FilterChains = [
        { Filters := [
            { Name := "envoy.filters.network.http_connection_manager"
              ConfigType := .TypedConfig
                { TypeUrl := "type.googleapis.com/envoy.extensions.filters.network.http_connection_manager.v3.HttpConnectionManager"
                  Value := [18, 4, 104, 116, 116, 112] } }] }] := by
  obtain ⟨m, _, _, _, h⟩ :=
    MakeHTTPListener_one_chain_one_filter sampleWellknown "listener_0" "0.0.0.0" 9000
  exact h sampleEncoder _ rfl

/-! ## Disjoint path prefixes -/

theorem hasPrefix_v2_grpc_disjoint (path : String) :
    ¬ (hasPrefix path "/v2" = true ∧
        hasPrefix path "/inference.GRPCInferenceService" = true) := by
  have h1 : "/v2".data = ['/', 'v', '2'] := rfl
  have h2 : "/inference.GRPCInferenceService".data =
      '/' :: 'i' :: "nference.GRPCInferenceService".data := rfl
  unfold hasPrefix
  rw [h1, h2]
  rintro ⟨ha, hb⟩
  match hl : path.data, ha, hb with
  | [], ha, _ => simp [List.isPrefixOf] at ha
  | [_], ha, _ => simp [List.isPrefixOf] at ha
  | c0 :: c1 :: rest, ha, hb =>
    simp only [List.isPrefixOf, Bool.and_eq_true, beq_iff_eq] at ha hb
    have hv : 'v' = c1 := ha.2.1
    have hi : 'i' = c1 := hb.2.1
    rw [← hv] at hi
    exact absurd hi (by decide)

theorem flatMap_pair_cons {α β : Type} (f g : α → β) (x : α) (xs : List α) :
    (x :: xs).flatMap (fun x => [f x, g x]) =
      f x :: g x :: xs.flatMap (fun x => [f x, g x]) := by
  simp [List.flatMap_cons]

theorem find?_swapPairs_flatMap_pair {α β : Type} (p : β → Bool) (f g : α → β)
    (hdis : ∀ x, ¬ (p (f x) = true ∧ p (g x) = true)) (l : List α) (flags : List Bool) :
    (swapPairs flags (l.flatMap (fun x => [f x, g x]))).find? p =
      (l.flatMap (fun x => [f x, g x])).find? p := by
  induction l generalizing flags with
  | nil => cases flags with
    | nil => rfl
    | cons b bs => cases b <;> rfl
  | cons x xs ih =>
    cases flags with
    | nil => rfl
    | cons b bs =>
      have hx := hdis x
      rw [flatMap_pair_cons]
      cases b with
      | false => simp only [swapPairs, List.find?_cons, ih]
      | true =>
        simp only [swapPairs, List.find?_cons, ih]
        cases hf : p (f x) <;> cases hg : p (g x) <;> simp_all

theorem countP_pair_flatMap_pair {α β : Type} (p : β → Bool) (f g : α → β)
    (hdis : ∀ x, ¬ (p (f x) = true ∧ p (g x) = true)) (l : List α) (i : Nat) :
    (((l.flatMap (fun x => [f x, g x])).drop (2 * i)).take 2).countP p ≤ 1 := by
  by_cases hi : i < l.length
  · have ha := getElem?_flatMap_pair_even f g l i
    have hb := getElem?_flatMap_pair_odd f g l i
    rw [List.getElem?_eq_getElem hi, Option.map_some'] at ha hb
    rw [take_two_drop ha hb]
    have hx := hdis l[i]
    simp only [List.countP_cons, List.countP_nil]
    cases hf : p (f l[i]) <;> cases hg : p (g l[i]) <;> simp_all
  · rw [List.drop_eq_nil_of_le (by rw [length_flatMap_pair]; omega)]
    simp

/-- A gRPC request for `model-b` reaches `model-b_grpc` and an HTTP request for `model-a`
reaches `model-a_http`, in the emitted order and with every pair exchanged. -/
theorem firstMatch_sample_requests :
    (([[], [true, true]] : List (List Bool)).map (fun flags =>
      ([{ Path := "/inference.GRPCInferenceService/ModelInfer"
          Headers := [("Seldon", "b.example.com")] },
        { Path := "/v2/models/m/infer"
          Headers := [("Host", "a.example.com")] }] : List Request).map (fun req =>
        (firstMatch exactHeader
          (swapPairs flags ((MakeRoute [modelA, modelB]).VirtualHosts.flatMap
            (fun vh => vh.Routes))) req).map (fun r => r.Name)))) =
      [[some "model-b_grpc", some "model-a_http"], [some "model-b_grpc", some "model-a_http"]] := by
  decide

/-- C8: no request path has both `/v2` and `/inference.GRPCInferenceService` as a prefix; so
for every route list, request path and route index at most one of the two rules generated
for that route matches on its path; and, rules being evaluated in table order with the first
match winning, the result over the table of `MakeRoute` is the same whichever of a route's
two rules comes first, for any evaluation of header matchers. -/
theorem MakeRoute_prefixes_disjoint :
    (∀ path : String,
      ¬ (hasPrefix path "/v2" = true ∧
          hasPrefix path "/inference.GRPCInferenceService" = true)) ∧
    (∀ (rs : List Route) (path : String) (i : Nat),
      ((((MakeRoute rs).VirtualHosts.flatMap (fun vh => vh.Routes)).drop (2 * i)).take
        2).countP (fun r => pathMatches r.Match.PathSpecifier path) ≤ 1) ∧
    (∀ (hdr : route.HeaderMatcher → Request → Bool) (rs : List Route) (req : Request)
        (flags : List Bool),
      firstMatch hdr (swapPairs flags ((MakeRoute rs).VirtualHosts.flatMap
          (fun vh => vh.Routes))) req =
        firstMatch hdr ((MakeRoute rs).VirtualHosts.flatMap (fun vh => vh.Routes)) req) := by
  refine ⟨hasPrefix_v2_grpc_disjoint, ?_, ?_⟩
  · intro rs path i
    simp only [MakeRoute_eq, List.flatMap_cons, List.flatMap_nil, List.append_nil]
    apply countP_pair_flatMap_pair
    intro r
    simpa only [pathMatches] using hasPrefix_v2_grpc_disjoint path
  · intro hdr rs req flags
    simp only [MakeRoute_eq, List.flatMap_cons, List.flatMap_nil, List.append_nil, firstMatch]
    apply find?_swapPairs_flatMap_pair
    intro r
    have hdis := hasPrefix_v2_grpc_disjoint req.Path
    simp only [ruleMatches, pathMatches, Bool.and_eq_true]
    rintro ⟨⟨h1, _⟩, ⟨h2, _⟩⟩
    exact hdis ⟨h1, h2⟩

/-! ## Abort or complete resource -/

/-- C11: no builder returns a half-built resource.  `MakeCluster` with `isGrpc = true` aborts
exactly when envelope encoding of the protocol options fails and otherwise returns the
complete cluster with the extension attached; `MakeCluster` with `isGrpc = false` returns the
complete cluster whatever the encoder does; `MakeEndpoint`, `MakeRoute` and
`makeConfigSource` are total functions and produce a result on every input;
`MakeHTTPListener` aborts exactly when envelope encoding of the connection-manager config
fails and otherwise returns the complete listener. -/
theorem builders_abort_or_complete (wk : Wellknown) (anypb_New : Encoder) (name : String)
    (eps : List Endpoint) (rs : List Route) (listenerName address : String) (port : Nat) :
    ((∃ err, MakeCluster anypb_New name eps true = .error err) ↔
      ∃ err, anypb_New (.HttpProtocolOptions
        { UpstreamProtocolOptions := .ExplicitHttpConfig
            { ProtocolConfig := .Http2ProtocolOptions {} } }) = .error err) ∧
    (∀ hpoMarshalled : AnyPb,
      anypb_New (.HttpProtocolOptions
        { UpstreamProtocolOptions := .ExplicitHttpConfig
            { ProtocolConfig := .Http2ProtocolOptions {} } }) = .ok hpoMarshalled →
      MakeCluster anypb_New name eps true = .ok
        { Name := name
          ConnectTimeout := { Seconds := 5, Nanos := 0 }
          ClusterDiscoveryType := .Type .STRICT_DNS
          LbPolicy := .ROUND_ROBIN
          LoadAssignment := MakeEndpoint name eps
          DnsLookupFamily := .V4_ONLY
          TypedExtensionProtocolOptions :=
            [("envoy.extensions.upstreams.http.v3.HttpProtocolOptions", hpoMarshalled)] }) ∧
    MakeCluster anypb_New name eps false = .ok
      { Name := name
        ConnectTimeout := { Seconds := 5, Nanos := 0 }
        ClusterDiscoveryType := .Type .STRICT_DNS
        LbPolicy := .ROUND_ROBIN
        LoadAssignment := MakeEndpoint name eps
        DnsLookupFamily := .V4_ONLY } ∧
    (∃ r : endpoint.ClusterLoadAssignment, MakeEndpoint name eps = r) ∧
    (∃ r : route.RouteConfiguration, MakeRoute rs = r) ∧
    (∃ r : core.ConfigSource, makeConfigSource wk = r) ∧
    ((∃ err, MakeHTTPListener wk anypb_New listenerName address port = .error err) ↔
      ∃ err, anypb_New (.HttpConnectionManager
        { CodecType := .AUTO, StatPrefix := "http",
          RouteSpecifier := .Rds
            { ConfigSource := makeConfigSource wk, RouteConfigName := RouteConfigurationName },
          HttpFilters := [{ Name := wk.Router }] }) = .error err) ∧
    (∀ pbst : AnyPb,
      anypb_New (.HttpConnectionManager
        { CodecType := .AUTO, StatPrefix := "http",
          RouteSpecifier := .Rds
            { ConfigSource := makeConfigSource wk, RouteConfigName := RouteConfigurationName },
          HttpFilters := [{ Name := wk.Router }] }) = .ok pbst →
      MakeHTTPListener wk anypb_New listenerName address port = .ok
        { Name := listenerName
          Address :=
            { Address := .SocketAddress
                { Protocol := .TCP, Address := address, PortSpecifier := .PortValue port } }
          FilterChains := [
            { Filters := [
                { Name := wk.HTTPConnectionManager, ConfigType := .TypedConfig pbst }] }] }) := by
  refine ⟨?_, ?_, ?_, ⟨_, rfl⟩, ⟨_, rfl⟩, ⟨_, rfl⟩, ?_, ?_⟩
  · simp only [MakeCluster, if_true]
    cases anypb_New (.HttpProtocolOptions _) <;> simp
  · intro a ha
    simp only [MakeCluster, if_true, ha, durationpb_New_five_seconds]
  · simp only [MakeCluster, Bool.false_eq_true, if_false, durationpb_New_five_seconds]
  · simp only [MakeHTTPListener]
    cases anypb_New (.HttpConnectionManager _) <;> simp
  · intro pbst h
    simp only [MakeHTTPListener, h]

/-- With an encoder that fails, `MakeCluster` for a gRPC cluster and `MakeHTTPListener` both
abort, while `MakeCluster` for a non-gRPC cluster still returns its cluster. -/
theorem builders_abort_or_complete_witness :
    (∃ err, MakeCluster failingEncoder "cl-grpc-a" sampleEndpoints true = .error err) ∧
    (∃ err, MakeHTTPListener sampleWellknown failingEncoder "listener_0" "0.0.0.0" 9000 =
      .error err) ∧
    (MakeCluster failingEncoder "cl-grpc-a" sampleEndpoints false).isOk = true := by
  have h := builders_abort_or_complete sampleWellknown failingEncoder "cl-grpc-a"
    sampleEndpoints [modelA] "listener_0" "0.0.0.0" 9000
  refine ⟨h.1.mpr ⟨_, rfl⟩, h.2.2.2.2.2.2.1.mpr ⟨_, rfl⟩, ?_⟩
  rw [h.2.2.1]
  rfl

/-! ## The discovery source and the cluster -/

/-- C12, the claim as stated fails: the gRPC cluster `cl-grpc-a` is returned without any EDS
cluster configuration, so it does not carry the one `makeEDSCluster` builds. -/
theorem MakeCluster_no_eds_config_counterexample :
    ∃ c : cluster.Cluster, MakeCluster sampleEncoder "cl-grpc-a" sampleEndpoints true = .ok c ∧
      c.EdsClusterConfig = none ∧
      c.EdsClusterConfig ≠ some (makeEDSCluster sampleWellknown) :=
  ⟨_, rfl, rfl, fun h => by cases h⟩

/-- C12, amended: `makeEDSCluster` wraps the descriptor (`EdsConfig = makeConfigSource`) and
the listener's RDS specifier carries it, but `MakeCluster` does not use it: every cluster it
returns has no EDS cluster configuration, has discovery type `STRICT_DNS` and carries its
endpoints inline as `LoadAssignment = MakeEndpoint name eps`. -/
theorem MakeCluster_without_eds_config (wk : Wellknown) (anypb_New : Encoder) (name : String)
    (eps : List Endpoint) (isGrpc : Bool)
    (henc : isGrpc = true → ∃ hpoMarshalled : AnyPb,
      anypb_New (.HttpProtocolOptions
        { UpstreamProtocolOptions := .ExplicitHttpConfig
            { ProtocolConfig := .Http2ProtocolOptions {} } }) = .ok hpoMarshalled) :
    (makeEDSCluster wk).EdsConfig = makeConfigSource wk ∧
    (∃ c : cluster.Cluster, MakeCluster anypb_New name eps isGrpc = .ok c ∧
      c.EdsClusterConfig = none ∧
      c.ClusterDiscoveryType = .Type .STRICT_DNS ∧
      c.LoadAssignment = MakeEndpoint name eps) ∧
    (∀ (listenerName address : String) (port : Nat) (pbst : AnyPb),
      anypb_New (.HttpConnectionManager
        { CodecType := .AUTO, StatPrefix := "http",
          RouteSpecifier := .Rds
            { ConfigSource := makeConfigSource wk, RouteConfigName := RouteConfigurationName },
          HttpFilters := [{ Name := wk.Router }] }) = .ok pbst →
      ∃ l : listener.Listener,
        MakeHTTPListener wk anypb_New listenerName address port = .ok l ∧
        l.FilterChains = [
          { Filters := [
              { Name := wk.HTTPConnectionManager, ConfigType := .TypedConfig pbst }] }]) := by
  refine ⟨rfl, ?_, ?_⟩
  · cases isGrpc with
    | false => exact ⟨_, rfl, rfl, rfl, rfl⟩
    | true =>
      obtain ⟨a, ha⟩ := henc rfl
      simp only [MakeCluster, if_true, ha]
      exact ⟨_, rfl, rfl, rfl, rfl⟩
  · intro listenerName address port pbst h
    simp only [MakeHTTPListener, h]
    exact ⟨_, rfl, rfl⟩

/-- The gRPC cluster `cl-grpc-a` built with the sample encoder has no EDS configuration. -/
theorem MakeCluster_without_eds_config_witness :
    ∃ c : cluster.Cluster, MakeCluster sampleEncoder "cl-grpc-a" sampleEndpoints true = .ok c ∧
      c.EdsClusterConfig = none ∧
      c.ClusterDiscoveryType = .Type .STRICT_DNS ∧
      c.LoadAssignment = MakeEndpoint "cl-grpc-a" sampleEndpoints :=
  (MakeCluster_without_eds_config sampleWellknown sampleEncoder "cl-grpc-a" sampleEndpoints
    true (fun _ => ⟨_, rfl⟩)).2.1

/-! ## Determinism -/

/-- C13: every builder is deterministic.  Two calls of `MakeEndpoint`, `MakeCluster`,
`MakeRoute`, `MakeHTTPListener` or `makeConfigSource` with equal arguments give equal
results, the abort outcome included; the results depend on the library encoder only through
its outcome on the two messages the builders hand to it. -/
theorem builders_deterministic (wk : Wellknown) (enc1 enc2 : Encoder)
    (name1 name2 : String) (eps1 eps2 : List Endpoint) (isGrpc1 isGrpc2 : Bool)
    (rs1 rs2 : List Route) (listenerName1 listenerName2 address1 address2 : String)
    (port1 port2 : Nat)
    (hname : name1 = name2) (heps : eps1 = eps2) (hgrpc : isGrpc1 = isGrpc2)
    (hrs : rs1 = rs2) (hlistener : listenerName1 = listenerName2)
    (haddress : address1 = address2) (hport : port1 = port2)
    (hhpo : enc1 (.HttpProtocolOptions
        { UpstreamProtocolOptions := .ExplicitHttpConfig
            { ProtocolConfig := .Http2ProtocolOptions {} } }) =
      enc2 (.HttpProtocolOptions
        { UpstreamProtocolOptions := .ExplicitHttpConfig
            { ProtocolConfig := .Http2ProtocolOptions {} } }))
    (hhcm : enc1 (.HttpConnectionManager
        { CodecType := .AUTO, StatPrefix := "http",
          RouteSpecifier := .Rds
            { ConfigSource := makeConfigSource wk, RouteConfigName := RouteConfigurationName },
          HttpFilters := [{ Name := wk.Router }] }) =
      enc2 (.HttpConnectionManager
        { CodecType := .AUTO, StatPrefix := "http",
          RouteSpecifier := .Rds
            { ConfigSource := makeConfigSource wk, RouteConfigName := RouteConfigurationName },
          HttpFilters := [{ Name := wk.Router }] })) :
    MakeEndpoint name1 eps1 = MakeEndpoint name2 eps2 ∧
    MakeCluster enc1 name1 eps1 isGrpc1 = MakeCluster enc2 name2 eps2 isGrpc2 ∧
    MakeRoute rs1 = MakeRoute rs2 ∧
    MakeHTTPListener wk enc1 listenerName1 address1 port1 =
      MakeHTTPListener wk enc2 listenerName2 address2 port2 ∧
    makeConfigSource wk = makeConfigSource wk := by
  subst hname heps hgrpc hrs hlistener haddress hport
  refine ⟨rfl, ?_, rfl, ?_, rfl⟩
  · cases isGrpc1 with
    | false => rfl
    | true => simp only [MakeCluster, if_true, hhpo]
  · simp only [MakeHTTPListener, hhcm]

/-- Two encoders that differ elsewhere but agree on the two messages of the builders give
the same cluster and the same listener. -/
theorem builders_deterministic_witness :
    MakeEndpoint "cl-grpc-a" sampleEndpoints = MakeEndpoint "cl-grpc-a" sampleEndpoints ∧
    MakeCluster sampleEncoder "cl-grpc-a" sampleEndpoints true =
      MakeCluster pickyEncoder "cl-grpc-a" sampleEndpoints true ∧
    MakeRoute [modelA, modelB] = MakeRoute [modelA, modelB] ∧
    MakeHTTPListener sampleWellknown sampleEncoder "listener_0" "0.0.0.0" 9000 =
      MakeHTTPListener sampleWellknown pickyEncoder "listener_0" "0.0.0.0" 9000 ∧
    makeConfigSource sampleWellknown = makeConfigSource sampleWellknown :=
  builders_deterministic sampleWellknown sampleEncoder pickyEncoder "cl-grpc-a" "cl-grpc-a"
    sampleEndpoints sampleEndpoints true true [modelA, modelB] [modelA, modelB]
    "listener_0" "listener_0" "0.0.0.0" "0.0.0.0" 9000 9000
    rfl rfl rfl rfl rfl rfl rfl rfl rfl

/-! ## Rule names -/

theorem append_suffix_cancel (n m suffix : String) (h : n ++ suffix = m ++ suffix) : n = m := by
  have h2 := congrArg String.data h
  simp only [String.data_append] at h2
  exact String.ext (List.append_cancel_right h2)

theorem http_name_ne_grpc_name (n m : String) : n ++ "_http" ≠ m ++ "_grpc" := by
  intro h
  have h2 := congrArg String.data h
  simp only [String.data_append] at h2
  have h3 := congrArg List.getLast? h2
  simp at h3

theorem nodup_flatMap_rule_names (names : List String) (h : names.Nodup) :
    (names.flatMap (fun n => [n ++ "_http", n ++ "_grpc"])).Nodup := by
  induction names with
  | nil => simp
  | cons n rest ih =>
    rw [List.nodup_cons] at h
    rw [flatMap_pair_cons (fun n : String => n ++ "_http") (fun n : String => n ++ "_grpc")]
    have hmem : ∀ x : String, x ∈ rest.flatMap (fun n => [n ++ "_http", n ++ "_grpc"]) →
        ∃ m, m ∈ rest ∧ (x = m ++ "_http" ∨ x = m ++ "_grpc") := by
      intro x hx
      rw [List.mem_flatMap] at hx
      obtain ⟨m, hm, hx⟩ := hx
      simp only [List.mem_cons, List.mem_singleton, List.not_mem_nil, or_false] at hx
      exact ⟨m, hm, hx⟩
    refine List.nodup_cons.mpr ⟨?_, List.nodup_cons.mpr ⟨?_, ih h.2⟩⟩
    · intro hx
      rw [List.mem_cons] at hx
      rcases hx with hx | hx
      · exact http_name_ne_grpc_name n n hx
      · obtain ⟨m, hm, hx | hx⟩ := hmem _ hx
        · exact h.1 (append_suffix_cancel n m "_http" hx ▸ hm)
        · exact http_name_ne_grpc_name n m hx
    · intro hx
      obtain ⟨m, hm, hx | hx⟩ := hmem _ hx
      · exact http_name_ne_grpc_name m n hx.symm
      · exact h.1 (append_suffix_cancel n m "_grpc" hx ▸ hm)

/-- C14: for every route list whose `Name` fields are pairwise distinct, the names of all
rules emitted by `MakeRoute` are pairwise distinct: `n ++ "_http" = m ++ "_http"` only if
`n = m`, likewise for `_grpc`, and no `n ++ "_http"` equals any `m ++ "_grpc"`. -/
theorem MakeRoute_rule_names_distinct (rs : List Route)
    (hnames : (rs.map (fun r => r.Name)).Nodup) :
    (((MakeRoute rs).VirtualHosts.flatMap (fun vh => vh.Routes)).map
      (fun r => r.Name)).Nodup ∧
    (∀ n m : String, n ++ "_http" = m ++ "_http" → n = m) ∧
    (∀ n m : String, n ++ "_grpc" = m ++ "_grpc" → n = m) ∧
    (∀ n m : String, n ++ "_http" ≠ m ++ "_grpc") := by
  refine ⟨?_, fun n m => append_suffix_cancel n m "_http",
    fun n m => append_suffix_cancel n m "_grpc", http_name_ne_grpc_name⟩
  have hn : ((MakeRoute rs).VirtualHosts.flatMap (fun vh => vh.Routes)).map (fun r => r.Name) =
      (rs.map (fun r => r.Name)).flatMap (fun n => [n ++ "_http", n ++ "_grpc"]) := by
    simp only [MakeRoute_eq, List.flatMap_cons, List.flatMap_nil, List.append_nil]
    induction rs with
    | nil => rfl
    | cons r rest ih =>
      have hrest : (rest.map (fun r => r.Name)).Nodup := (List.nodup_cons.mp hnames).2
      simp only [List.flatMap_cons, List.map_append, List.map_cons, List.map_nil, ih hrest]
  rw [hn]
  exact nodup_flatMap_rule_names _ hnames

/-- The two routes `model-a` and `model-b` have distinct names, and their four rule names
are pairwise distinct. -/
theorem MakeRoute_rule_names_distinct_witness :
    ([modelA, modelB].map (fun r => r.Name)).Nodup ∧
    (((MakeRoute [modelA, modelB]).VirtualHosts.flatMap (fun vh => vh.Routes)).map
      (fun r => r.Name)).Nodup :=
  ⟨by decide, (MakeRoute_rule_names_distinct [modelA, modelB] (by decide)).1⟩

/-! ## Cross-references and frame properties -/

/-- C15: for every cluster name, endpoint list and value of `isGrpc`, provided the encoding
the gRPC branch needs succeeds, the cluster `MakeCluster` returns satisfies
`Name = LoadAssignment.ClusterName = name`; so, for every route `r` at index `i` of a route
list, a cluster built with name `r.HttpCluster` has the name the rule at `2 * i` forwards to,
and one built with name `r.GrpcCluster` the name the rule at `2 * i + 1` forwards to. -/
theorem MakeCluster_name_matches_assignment (anypb_New : Encoder) (name : String)
    (eps : List Endpoint) (isGrpc : Bool)
    (henc : isGrpc = true → ∃ hpoMarshalled : AnyPb,
      anypb_New (.HttpProtocolOptions
        { UpstreamProtocolOptions := .ExplicitHttpConfig
            { ProtocolConfig := .Http2ProtocolOptions {} } }) = .ok hpoMarshalled) :
    ∃ c : cluster.Cluster, MakeCluster anypb_New name eps isGrpc = .ok c ∧
      c.Name = name ∧ c.LoadAssignment.ClusterName = name ∧
      ∀ (rs : List Route) (i : Nat) (r : Route), rs[i]? = some r →
        (r.HttpCluster = name →
          (((MakeRoute rs).VirtualHosts.flatMap (fun vh => vh.Routes))[2 * i]?).map
              (fun rule => rule.Action) =
            some (.Route { ClusterSpecifier := .Cluster c.Name })) ∧
        (r.GrpcCluster = name →
          (((MakeRoute rs).VirtualHosts.flatMap (fun vh => vh.Routes))[2 * i + 1]?).map
              (fun rule => rule.Action) =
            some (.Route { ClusterSpecifier := .Cluster c.Name })) := by
  have hroutes : ∀ (rs : List Route) (i : Nat) (r : Route), rs[i]? = some r →
      (r.HttpCluster = name →
        (((MakeRoute rs).VirtualHosts.flatMap (fun vh => vh.Routes))[2 * i]?).map
            (fun rule => rule.Action) =
          some (.Route { ClusterSpecifier := .Cluster name })) ∧
      (r.GrpcCluster = name →
        (((MakeRoute rs).VirtualHosts.flatMap (fun vh => vh.Routes))[2 * i + 1]?).map
            (fun rule => rule.Action) =
          some (.Route { ClusterSpecifier := .Cluster name })) := by
    intro rs i r hr
    simp only [MakeRoute_eq, List.flatMap_cons, List.flatMap_nil, List.append_nil,
      getElem?_flatMap_pair_even, getElem?_flatMap_pair_odd, hr, Option.map_some']
    constructor <;> intro h <;> rw [h]
  cases isGrpc with
  | false => exact ⟨_, rfl, rfl, rfl, hroutes⟩
  | true =>
    obtain ⟨a, ha⟩ := henc rfl
    simp only [MakeCluster, if_true, ha]
    exact ⟨_, rfl, rfl, rfl, hroutes⟩

/-- The cluster built under the name `model-b` forwards gRPC to is the target of rule 3. -/
theorem MakeCluster_name_matches_assignment_witness :
    ∃ c : cluster.Cluster, MakeCluster sampleEncoder "cl-grpc-b" sampleEndpoints true = .ok c ∧
      c.Name = "cl-grpc-b" ∧ c.LoadAssignment.ClusterName = "cl-grpc-b" ∧
      (((MakeRoute [modelA, modelB]).VirtualHosts.flatMap (fun vh => vh.Routes))[2 * 1 + 1]?).map
          (fun rule => rule.Action) =
        some (.Route { ClusterSpecifier := .Cluster c.Name }) := by
  obtain ⟨c, hc, h1, h2, h3⟩ := MakeCluster_name_matches_assignment sampleEncoder "cl-grpc-b"
    sampleEndpoints true (fun _ => ⟨_, rfl⟩)
  exact ⟨c, hc, h1, h2, (h3 [modelA, modelB] 1 modelB rfl).2 rfl⟩

/-- C16: for every cluster name and endpoint list, when the encoding of the gRPC branch
succeeds, `MakeCluster name eps true` and `MakeCluster name eps false` agree on `Name`,
`ConnectTimeout`, the discovery type, `LbPolicy`, `LoadAssignment` and `DnsLookupFamily`:
the first is the second with only the typed-extension map replaced. -/
theorem MakeCluster_flag_changes_extension_only (anypb_New : Encoder) (name : String)
    (eps : List Endpoint) (hpoMarshalled : AnyPb)
    (henc : anypb_New (.HttpProtocolOptions
        { UpstreamProtocolOptions := .ExplicitHttpConfig
            { ProtocolConfig := .Http2ProtocolOptions {} } }) = .ok hpoMarshalled) :
    ∃ cGrpc cHttp : cluster.Cluster,
      MakeCluster anypb_New name eps true = .ok cGrpc ∧
      MakeCluster anypb_New name eps false = .ok cHttp ∧
      cGrpc.Name = cHttp.Name ∧
      cGrpc.ConnectTimeout = cHttp.ConnectTimeout ∧
      cGrpc.ClusterDiscoveryType = cHttp.ClusterDiscoveryType ∧
      cGrpc.LbPolicy = cHttp.LbPolicy ∧
      cGrpc.LoadAssignment = cHttp.LoadAssignment ∧
      cGrpc.DnsLookupFamily = cHttp.DnsLookupFamily ∧
      cGrpc = { cHttp with
        TypedExtensionProtocolOptions :=
          [("envoy.extensions.upstreams.http.v3.HttpProtocolOptions", hpoMarshalled)] } ∧
      cGrpc.TypedExtensionProtocolOptions ≠ cHttp.TypedExtensionProtocolOptions := by
  simp only [MakeCluster, if_true, henc, Bool.false_eq_true, if_false]
  exact ⟨_, _, rfl, rfl, rfl, rfl, rfl, rfl, rfl, rfl, rfl, fun h => by cases h⟩

/-- With the sample encoder the two clusters named `cl-a` differ in the extension map only. -/
theorem MakeCluster_flag_changes_extension_only_witness :
    ∃ cGrpc cHttp : cluster.Cluster,
      MakeCluster sampleEncoder "cl-a" sampleEndpoints true = .ok cGrpc ∧
      MakeCluster sampleEncoder "cl-a" sampleEndpoints false = .ok cHttp ∧
      cGrpc.Name = cHttp.Name ∧
      cGrpc.ConnectTimeout = cHttp.ConnectTimeout ∧
      cGrpc.ClusterDiscoveryType = cHttp.ClusterDiscoveryType ∧
      cGrpc.LbPolicy = cHttp.LbPolicy ∧
      cGrpc.LoadAssignment = cHttp.LoadAssignment ∧
      cGrpc.DnsLookupFamily = cHttp.DnsLookupFamily ∧
      cGrpc = { cHttp with
        TypedExtensionProtocolOptions :=
          [("envoy.extensions.upstreams.http.v3.HttpProtocolOptions",
            { TypeUrl :=
                "type.googleapis.com/envoy.extensions.upstreams.http.v3.HttpProtocolOptions",
              Value := [18, 2, 18, 0] })] } ∧
      cGrpc.TypedExtensionProtocolOptions ≠ cHttp.TypedExtensionProtocolOptions :=
  MakeCluster_flag_changes_extension_only sampleEncoder "cl-a" sampleEndpoints _ rfl

/-- C17: the messages handed to envelope encoding do not depend on caller input.  One
connection manager `m` is encoded by `MakeHTTPListener` for every listener name, address and
port, and one protocol-options value `o` by `MakeCluster` with `isGrpc = true` for every
cluster name and endpoint list; hence whether a call aborts does not depend on its arguments,
and the arguments reach only the listener's `Name` and `Address`, respectively the cluster's
`Name` and `LoadAssignment`. -/
theorem encoded_messages_independent_of_arguments (wk : Wellknown) :
    (∃ m : hcm.HttpConnectionManager,
      ∀ (anypb_New : Encoder) (listenerName address : String) (port : Nat),
        MakeHTTPListener wk anypb_New listenerName address port =
          (anypb_New (.HttpConnectionManager m)).map (fun pbst =>
            { Name := listenerName
              Address :=
                { Address := .SocketAddress
                    { Protocol := .TCP, Address := address, PortSpecifier := .PortValue port } }
              FilterChains := [
                { Filters := [
                    { Name := wk.HTTPConnectionManager
                      ConfigType := .TypedConfig pbst }] }] })) ∧
    (∃ o : http.HttpProtocolOptions,
      ∀ (anypb_New : Encoder) (name : String) (eps : List Endpoint),
        MakeCluster anypb_New name eps true =
          (anypb_New (.HttpProtocolOptions o)).map (fun hpoMarshalled =>
            { Name := name
              ConnectTimeout := { Seconds := 5, Nanos := 0 }
              ClusterDiscoveryType := .Type .STRICT_DNS
              LbPolicy := .ROUND_ROBIN
              LoadAssignment := MakeEndpoint name eps
              DnsLookupFamily := .V4_ONLY
              TypedExtensionProtocolOptions :=
                [("envoy.extensions.upstreams.http.v3.HttpProtocolOptions",
                  hpoMarshalled)] })) ∧
    (∀ (anypb_New : Encoder) (listenerName1 address1 : String) (port1 : Nat)
        (listenerName2 address2 : String) (port2 : Nat),
      (MakeHTTPListener wk anypb_New listenerName1 address1 port1).isOk =
        (MakeHTTPListener wk anypb_New listenerName2 address2 port2).isOk) ∧
    (∀ (anypb_New : Encoder) (name1 : String) (eps1 : List Endpoint) (name2 : String)
        (eps2 : List Endpoint),
      (MakeCluster anypb_New name1 eps1 true).isOk =
        (MakeCluster anypb_New name2 eps2 true).isOk) := by
  refine ⟨⟨{ CodecType := .AUTO, StatPrefix := "http",
             RouteSpecifier := .Rds
               { ConfigSource := makeConfigSource wk, RouteConfigName := RouteConfigurationName },
             HttpFilters := [{ Name := wk.Router }] }, ?_⟩,
    ⟨{ UpstreamProtocolOptions := .ExplicitHttpConfig
         { ProtocolConfig := .Http2ProtocolOptions {} } }, ?_⟩, ?_, ?_⟩
  · intro enc listenerName address port
    simp only [MakeHTTPListener]
    cases enc (.HttpConnectionManager _) <;> rfl
  · intro enc name eps
    simp only [MakeCluster, if_true, durationpb_New_five_seconds]
    cases enc (.HttpProtocolOptions _) <;> rfl
  · intro enc n1 a1 p1 n2 a2 p2
    simp only [MakeHTTPListener]
    cases enc (.HttpConnectionManager _) <;> rfl
  · intro enc n1 e1 n2 e2
    simp only [MakeCluster, if_true]
    cases enc (.HttpProtocolOptions _) <;> rfl

/-! ## List homomorphisms -/

/-- C18: `MakeRoute` and `MakeEndpoint` are list homomorphisms.  The rule list of
`MakeRoute (a ++ b)` is the rule list of `MakeRoute a` followed by that of `MakeRoute b`, and
the lb-endpoint list of `MakeEndpoint name (x ++ y)` is that of `MakeEndpoint name x`
followed by that of `MakeEndpoint name y`; so each list is the concatenation, in input order,
of what the builder emits for each element alone. -/
theorem MakeRoute_MakeEndpoint_append (a b : List Route) (name : String)
    (x y : List Endpoint) :
    (MakeRoute (a ++ b)).VirtualHosts.flatMap (fun vh => vh.Routes) =
      (MakeRoute a).VirtualHosts.flatMap (fun vh => vh.Routes) ++
        (MakeRoute b).VirtualHosts.flatMap (fun vh => vh.Routes) ∧
    (MakeEndpoint name (x ++ y)).Endpoints.flatMap (fun g => g.LbEndpoints) =
      (MakeEndpoint name x).Endpoints.flatMap (fun g => g.LbEndpoints) ++
        (MakeEndpoint name y).Endpoints.flatMap (fun g => g.LbEndpoints) ∧
    (MakeRoute a).VirtualHosts.flatMap (fun vh => vh.Routes) =
      a.flatMap (fun r => (MakeRoute [r]).VirtualHosts.flatMap (fun vh => vh.Routes)) ∧
    (MakeEndpoint name x).Endpoints.flatMap (fun g => g.LbEndpoints) =
      x.flatMap (fun e => (MakeEndpoint name [e]).Endpoints.flatMap
        (fun g => g.LbEndpoints)) := by
  refine ⟨?_, ?_, ?_, ?_⟩
  · simp only [MakeRoute_eq, List.flatMap_cons, List.flatMap_nil, List.append_nil,
      List.flatMap_append]
  · simp only [MakeEndpoint_eq, List.flatMap_cons, List.flatMap_nil, List.append_nil,
      List.map_append]
  · simp only [MakeRoute_eq, List.flatMap_cons, List.flatMap_nil, List.append_nil]
  · simp only [MakeEndpoint_eq, List.flatMap_cons, List.flatMap_nil, List.append_nil,
      List.map_cons, List.map_nil]
    induction x with
    | nil => rfl
    | cons e rest ih => simp only [List.map_cons, List.flatMap_cons, ih, List.singleton_append]

end Resources
